import Mathlib

/-!
Verification of the upscaledb source sample: the UQI top-K / bottom-K scan
visitors (src/4uqi/top.h, src/4uqi/bottom.h), the `File` handle wrapper
(src/1os/file.h) and the blob page header (src/3blob_manager/blob_manager_disk.h).

The visitors are C++ templates over fixed-width numeric key/record types.
They are embedded shallowly: the numeric domain is `Int`, and the
`std::numeric_limits<...>::max()` / `::min()` sentinels of the concrete
instantiation are passed as explicit parameters (`kmax`, `rmax`, `kmin`,
`rmin`).  A `std::map<T1,T2>` is embedded as an association list that is
strictly sorted on the first component; `std::map::insert` does not
overwrite an existing key, which the embedding mirrors exactly.
-/

/-- Bit tested by the visitors in `statement->function.flags`.
Modelled from the spec: `UQI_STREAM_KEY` is declared in
`ups/upscaledb_uqi.h`, which is not part of the source sample; the spec
says "`STREAM_KEY` (bit) — order by key if set, by value otherwise". -/
def UQI_STREAM_KEY : Nat := 1

/-- Modelled from the spec: the `isset(f, b)` macro of `1base/util.h` (not in
the sample) tests that all bits of `b` are set in `f`. -/
def isset (flags bit : Nat) : Bool := flags &&& bit == bit

/-- Modelled from the spec: `SelectStatement` is declared in
`4uqi/statements.h`, which is not part of the source sample.  The spec names
the fields the visitors read and write: `function.flags` (carrying the
`UQI_STREAM_KEY` bit) and `limit` (the K of top-K/bottom-K).  The remaining
fields stand for the rest of the parsed statement, untouched by the
visitors. -/
structure SelectStatement where
  function_flags : Nat
  predicate_flags : Nat
  distinct : Bool
  limit : Nat
deriving DecidableEq

/-- Fields of `DbConfig` (from `2config/db_config.h`, not in the sample) that
the visitors read: the numeric type tags of keys and records. -/
structure DbConfig where
  key_type : Int
  record_type : Int
deriving DecidableEq

/-- Embedding of `std::map<T1, T2>` for fixed-width numeric `T1`, `T2`:
an association list strictly sorted in its first component. -/
abbrev MapList := List (Int × Int)

/-- Well-formedness of the `std::map` embedding: keys strictly ascending. -/
abbrev SortedMap (l : MapList) : Prop := l.Pairwise (fun p q => p.1 < q.1)

/-- Embedding of `storage.insert(ValueType(k, v))`: ordered insertion.
`std::map::insert` FAILS silently when the key is already present — the
stored pair is left unchanged and nothing is added — and the embedding
mirrors that in the `k = k0` branch. -/
def mapInsert (k v : Int) : MapList → MapList
  | [] => [(k, v)]
  | (k0, v0) :: rest =>
    if k < k0 then (k, v) :: (k0, v0) :: rest
    else if k = k0 then (k0, v0) :: rest
    else (k0, v0) :: mapInsert k v rest

/-- Embedding of `storage.erase(storage.find(k))`: removes the unique entry
whose key is `k`.  (When `k` is absent, `find` returns `end()` and the C++
call is undefined; the embedding then removes nothing.  All reachable call
sites pass the cached boundary, which is proved below to be present.) -/
def mapErase (k : Int) : MapList → MapList
  | [] => []
  | (k0, v0) :: rest => if k = k0 then rest else (k0, v0) :: mapErase k rest

/-- Key of `storage.begin()`, i.e. the first (smallest) key of the map;
`d` is returned for the empty map (where `begin()` would be `end()`). -/
def headKeyD (d : Int) : MapList → Int
  | [] => d
  | (k0, _) :: _ => k0

/-- Key of `storage.rbegin()`, i.e. the last (largest) key of the map;
`d` is returned for the empty map. -/
def lastKeyD (d : Int) : MapList → Int
  | [] => d
  | [(k0, _)] => k0
  | _ :: p :: rest => lastKeyD d (p :: rest)

/-- Minimum of the keys stored in the map, `d` for the empty map. -/
def keysMinD (d : Int) (l : MapList) : Int :=
  match l.map Prod.fst with
  | [] => d
  | x :: xs => xs.foldl min x

/-- Maximum of the keys stored in the map, `d` for the empty map. -/
def keysMaxD (d : Int) (l : MapList) : Int :=
  match l.map Prod.fst with
  | [] => d
  | x :: xs => xs.foldl max x

/-- Embedding of `store_min_value` from src/4uqi/top.h (lines 39-58):
if the map holds fewer than `limit` entries the new pair is inserted and the
smaller of `new_minimum` and `old_minimum` is returned; otherwise, when
`new_minimum > old_minimum`, the entry at the old minimum is erased, the new
pair inserted, and the key of `storage.begin()` returned; otherwise nothing
changes.  Returns the new boundary together with the new map. -/
def store_min_value (new_minimum old_minimum value : Int)
    (storage : MapList) (limit : Nat) : Int × MapList :=
  if storage.length < limit then
    (if new_minimum < old_minimum then new_minimum else old_minimum,
     mapInsert new_minimum value storage)
  else if old_minimum < new_minimum then
    (headKeyD 0 (mapInsert new_minimum value (mapErase old_minimum storage)),
     mapInsert new_minimum value (mapErase old_minimum storage))
  else
    (old_minimum, storage)

/-- Embedding of `store_max_value` from src/4uqi/bottom.h (lines 39-57):
mirror image of `store_min_value`; the boundary returned from the full
branch is the key of `storage.rbegin()`. -/
def store_max_value (new_maximum old_maximum value : Int)
    (storage : MapList) (limit : Nat) : Int × MapList :=
  if storage.length < limit then
    (if old_maximum < new_maximum then new_maximum else old_maximum,
     mapInsert new_maximum value storage)
  else if new_maximum < old_maximum then
    (lastKeyD 0 (mapInsert new_maximum value (mapErase old_maximum storage)),
     mapInsert new_maximum value (mapErase old_maximum storage))
  else
    (old_maximum, storage)

/-- State of `TopScanVisitorBase<Key, Record>` (src/4uqi/top.h lines 60-110):
the cached minima and the two `std::map` members, plus the type tags copied
from the `DbConfig`. -/
structure TopState where
  min_key : Int
  stored_keys : MapList
  min_record : Int
  stored_records : MapList
  key_type : Int
  record_type : Int
deriving DecidableEq

/-- State of `BottomScanVisitorBase<Key, Record>` (src/4uqi/bottom.h lines
59-109). -/
structure BottomState where
  max_key : Int
  stored_keys : MapList
  max_record : Int
  stored_records : MapList
  key_type : Int
  record_type : Int
deriving DecidableEq

/-- Constructor of `TopScanVisitorBase` (src/4uqi/top.h lines 62-69):
`min_key` and `min_record` start at `std::numeric_limits<...>::max()` of the
instantiated types (here the parameters `kmax`, `rmax`), the maps start
empty, and `statement->limit` is coerced in place from 0 to 1.  Returns the
initial state together with the statement as left behind by the
constructor. -/
def constructTop (cfg : DbConfig) (stmt : SelectStatement) (kmax rmax : Int) :
    TopState × SelectStatement :=
  (⟨kmax, [], rmax, [], cfg.key_type, cfg.record_type⟩,
   if stmt.limit = 0 then { stmt with limit := 1 } else stmt)

/-- Constructor of `BottomScanVisitorBase` (src/4uqi/bottom.h lines 61-68):
`max_key` and `max_record` start at `std::numeric_limits<...>::min()`
(parameters `kmin`, `rmin`); `statement->limit` is coerced from 0 to 1. -/
def constructBottom (cfg : DbConfig) (stmt : SelectStatement) (kmin rmin : Int) :
    BottomState × SelectStatement :=
  (⟨kmin, [], rmin, [], cfg.key_type, cfg.record_type⟩,
   if stmt.limit = 0 then { stmt with limit := 1 } else stmt)

/-- Single-row entry `TopScanVisitor::operator()(key, ..., record, ...)`
(src/4uqi/top.h lines 121-135): depending on `UQI_STREAM_KEY`, feed
`store_min_value` either the key (payload record) into `stored_keys` or the
record (payload key) into `stored_records`. -/
def topStep (stmt : SelectStatement) (st : TopState) (key rec : Int) : TopState :=
  if isset stmt.function_flags UQI_STREAM_KEY then
    { st with
      min_key := (store_min_value key st.min_key rec st.stored_keys stmt.limit).1
      stored_keys := (store_min_value key st.min_key rec st.stored_keys stmt.limit).2 }
  else
    { st with
      min_record :=
        (store_min_value rec st.min_record key st.stored_records stmt.limit).1
      stored_records :=
        (store_min_value rec st.min_record key st.stored_records stmt.limit).2 }

/-- Single-row entry `BottomScanVisitor::operator()` (src/4uqi/bottom.h
lines 120-134). -/
def bottomStep (stmt : SelectStatement) (st : BottomState) (key rec : Int) :
    BottomState :=
  if isset stmt.function_flags UQI_STREAM_KEY then
    { st with
      max_key := (store_max_value key st.max_key rec st.stored_keys stmt.limit).1
      stored_keys := (store_max_value key st.max_key rec st.stored_keys stmt.limit).2 }
  else
    { st with
      max_record :=
        (store_max_value rec st.max_record key st.stored_records stmt.limit).1
      stored_records :=
        (store_max_value rec st.max_record key st.stored_records stmt.limit).2 }

/-- Single-row entry of `TopIfScanVisitor` (src/4uqi/top.h lines 180-196):
the plugin predicate is evaluated on the row first; only when it passes is
the row handed to the same logic as the plain visitor. -/
def topIfStep (pred : Int → Int → Bool) (stmt : SelectStatement)
    (st : TopState) (key rec : Int) : TopState :=
  if pred key rec then topStep stmt st key rec else st

/-- Single-row entry of `BottomIfScanVisitor` (src/4uqi/bottom.h lines
179-195). -/
def bottomIfStep (pred : Int → Int → Bool) (stmt : SelectStatement)
    (st : BottomState) (key rec : Int) : BottomState :=
  if pred key rec then bottomStep stmt st key rec else st

/-- Repeated invocation of the single-row entry on a list of
`(key, record)` rows, in order. -/
def topRunRows (stmt : SelectStatement) (st : TopState)
    (rows : List (Int × Int)) : TopState :=
  rows.foldl (fun s p => topStep stmt s p.1 p.2) st

/-- Repeated single-row invocation, bottom visitor. -/
def bottomRunRows (stmt : SelectStatement) (st : BottomState)
    (rows : List (Int × Int)) : BottomState :=
  rows.foldl (fun s p => bottomStep stmt s p.1 p.2) st

/-- Repeated single-row invocation, top predicate variant. -/
def topIfRunRows (pred : Int → Int → Bool) (stmt : SelectStatement)
    (st : TopState) (rows : List (Int × Int)) : TopState :=
  rows.foldl (fun s p => topIfStep pred stmt s p.1 p.2) st

/-- Repeated single-row invocation, bottom predicate variant. -/
def bottomIfRunRows (pred : Int → Int → Bool) (stmt : SelectStatement)
    (st : BottomState) (rows : List (Int × Int)) : BottomState :=
  rows.foldl (fun s p => bottomIfStep pred stmt s p.1 p.2) st

/-- Batch entry `TopScanVisitor::operator()(key_data, record_data, length)`
(src/4uqi/top.h lines 138-157): iterates the two parallel fixed-width
sequences in lockstep, applying the same per-row logic. -/
def topBatch (stmt : SelectStatement) (st : TopState) :
    List Int → List Int → TopState
  | k :: ks, r :: rs => topBatch stmt (topStep stmt st k r) ks rs
  | _, _ => st

/-- Batch entry `BottomScanVisitor::operator()` (src/4uqi/bottom.h lines
137-156). -/
def bottomBatch (stmt : SelectStatement) (st : BottomState) :
    List Int → List Int → BottomState
  | k :: ks, r :: rs => bottomBatch stmt (bottomStep stmt st k r) ks rs
  | _, _ => st

/-- Batch entry of `TopIfScanVisitor` (src/4uqi/top.h lines 203-226): the
predicate is evaluated per row inside the loop, before the store. -/
def topIfBatch (pred : Int → Int → Bool) (stmt : SelectStatement)
    (st : TopState) : List Int → List Int → TopState
  | k :: ks, r :: rs => topIfBatch pred stmt (topIfStep pred stmt st k r) ks rs
  | _, _ => st

/-- Batch entry of `BottomIfScanVisitor` (src/4uqi/bottom.h lines
202-225). -/
def bottomIfBatch (pred : Int → Int → Bool) (stmt : SelectStatement)
    (st : BottomState) : List Int → List Int → BottomState
  | k :: ks, r :: rs =>
      bottomIfBatch pred stmt (bottomIfStep pred stmt st k r) ks rs
  | _, _ => st

/-- Result object built by `assign_result`: `uqi_result_initialize` records
the two type tags, then `uqi_result_add_row` appends `(key, record)` rows in
order. -/
structure UqiResult where
  key_type : Int
  record_type : Int
  rows : List (Int × Int)
deriving DecidableEq

/-- Embedding of `TopScanVisitorBase::assign_result` (src/4uqi/top.h lines
72-93): with `UQI_STREAM_KEY` the rows are the entries of `stored_keys` in
ascending key order; otherwise the entries of `stored_records` in ascending
record order, each emitted as `(key, record)`. -/
def topAssignResult (stmt : SelectStatement) (st : TopState) : UqiResult :=
  { key_type := st.key_type
    record_type := st.record_type
    rows :=
      if isset stmt.function_flags UQI_STREAM_KEY then
        st.stored_keys
      else
        st.stored_records.map (fun p => (p.2, p.1)) }

/-- Embedding of `BottomScanVisitorBase::assign_result` (src/4uqi/bottom.h
lines 71-92); textually identical to the top version. -/
def bottomAssignResult (stmt : SelectStatement) (st : BottomState) : UqiResult :=
  { key_type := st.key_type
    record_type := st.record_type
    rows :=
      if isset stmt.function_flags UQI_STREAM_KEY then
        st.stored_keys
      else
        st.stored_records.map (fun p => (p.2, p.1)) }

/-- Full run of the plain top visitor: construct, feed all rows through the
single-row entry, keep the final state and the coerced statement. -/
def topRun (cfg : DbConfig) (stmt : SelectStatement) (kmax rmax : Int)
    (rows : List (Int × Int)) : TopState × SelectStatement :=
  (topRunRows (constructTop cfg stmt kmax rmax).2
      (constructTop cfg stmt kmax rmax).1 rows,
   (constructTop cfg stmt kmax rmax).2)

/-- Full run of the plain bottom visitor. -/
def bottomRun (cfg : DbConfig) (stmt : SelectStatement) (kmin rmin : Int)
    (rows : List (Int × Int)) : BottomState × SelectStatement :=
  (bottomRunRows (constructBottom cfg stmt kmin rmin).2
      (constructBottom cfg stmt kmin rmin).1 rows,
   (constructBottom cfg stmt kmin rmin).2)

/-- Full run of the top predicate variant. -/
def topIfRun (pred : Int → Int → Bool) (cfg : DbConfig)
    (stmt : SelectStatement) (kmax rmax : Int)
    (rows : List (Int × Int)) : TopState × SelectStatement :=
  (topIfRunRows pred (constructTop cfg stmt kmax rmax).2
      (constructTop cfg stmt kmax rmax).1 rows,
   (constructTop cfg stmt kmax rmax).2)

/-- Full run of the bottom predicate variant. -/
def bottomIfRun (pred : Int → Int → Bool) (cfg : DbConfig)
    (stmt : SelectStatement) (kmin rmin : Int)
    (rows : List (Int × Int)) : BottomState × SelectStatement :=
  (bottomIfRunRows pred (constructBottom cfg stmt kmin rmin).2
      (constructBottom cfg stmt kmin rmin).1 rows,
   (constructBottom cfg stmt kmin rmin).2)

/-- Result of a full plain top run, as handed to the result builder. -/
def topResult (cfg : DbConfig) (stmt : SelectStatement) (kmax rmax : Int)
    (rows : List (Int × Int)) : UqiResult :=
  topAssignResult (topRun cfg stmt kmax rmax rows).2
    (topRun cfg stmt kmax rmax rows).1

/-- Result of a full plain bottom run. -/
def bottomResult (cfg : DbConfig) (stmt : SelectStatement) (kmin rmin : Int)
    (rows : List (Int × Int)) : UqiResult :=
  bottomAssignResult (bottomRun cfg stmt kmin rmin rows).2
    (bottomRun cfg stmt kmin rmin rows).1

/-- Result of a full top predicate-variant run. -/
def topIfResult (pred : Int → Int → Bool) (cfg : DbConfig)
    (stmt : SelectStatement) (kmax rmax : Int)
    (rows : List (Int × Int)) : UqiResult :=
  topAssignResult (topIfRun pred cfg stmt kmax rmax rows).2
    (topIfRun pred cfg stmt kmax rmax rows).1

/-- Result of a full bottom predicate-variant run. -/
def bottomIfResult (pred : Int → Int → Bool) (cfg : DbConfig)
    (stmt : SelectStatement) (kmin rmin : Int)
    (rows : List (Int × Int)) : UqiResult :=
  bottomAssignResult (bottomIfRun pred cfg stmt kmin rmin rows).2
    (bottomIfRun pred cfg stmt kmin rmin rows).1

/-- Projection of an emitted row onto the selected ordering dimension:
the key when `UQI_STREAM_KEY` is set, the record value otherwise. -/
def dimProj (stmt : SelectStatement) (row : Int × Int) : Int :=
  if isset stmt.function_flags UQI_STREAM_KEY then row.1 else row.2

/-- Modelled from the spec: `HAM_INVALID_FD` is defined in `1os/os.h` (not in
the sample) as the invalid file-descriptor value; `-1` on POSIX. -/
def HAM_INVALID_FD : Int := -1

/-- Embedding of `class File` from src/1os/file.h: the two handle members
`m_fd` (file descriptor) and `m_mmaph` (mmap handle, required for Win32). -/
structure File where
  m_fd : Int
  m_mmaph : Int
deriving DecidableEq

/-- Default constructor `File()` (src/1os/file.h lines 59-61): both handles
invalid. -/
def File.mkEmpty : File := ⟨HAM_INVALID_FD, HAM_INVALID_FD⟩

/-- Copy constructor `File(File &other)` (src/1os/file.h lines 64-68): the
new object takes both of the donor's handles and the donor's `m_fd` and
`m_mmaph` are both set to `HAM_INVALID_FD`.  Returns (constructed object,
donor afterwards). -/
def fileCopyCtor (other : File) : File × File :=
  (⟨other.m_fd, other.m_mmaph⟩, ⟨HAM_INVALID_FD, HAM_INVALID_FD⟩)

/-- Assignment `File &operator=(File &other)` (src/1os/file.h lines 76-80):
only `m_fd` is copied and only the donor's `m_fd` is invalidated; neither
object's `m_mmaph` is touched.  Returns (assigned-to object afterwards,
donor afterwards). -/
def fileAssign (self other : File) : File × File :=
  ({ self with m_fd := other.m_fd }, { other with m_fd := HAM_INVALID_FD })

/-- Embedding of `File::is_open` (src/1os/file.h lines 89-91): tests
`m_fd != HAM_INVALID_FD`; the mmap handle is not consulted. -/
def File.is_open (f : File) : Bool := f.m_fd != HAM_INVALID_FD

/-- One `FreelistEntry` of the blob page header
(src/3blob_manager/blob_manager_disk.h lines 111-114). -/
structure FreelistEntry where
  offset : Nat
  size : Nat
deriving DecidableEq

/-- Embedding of the packed `PBlobPageHeader`
(src/3blob_manager/blob_manager_disk.h lines 46-118): `m_num_pages`,
`m_free_bytes` and the fixed 32-entry freelist. -/
structure PBlobPageHeader where
  m_num_pages : Nat
  m_free_bytes : Nat
  m_freelist : Fin 32 → FreelistEntry

/-- Embedding of `PBlobPageHeader::initialize()`
(src/3blob_manager/blob_manager_disk.h lines 49-51), which does
`memset(this, 0, sizeof(PBlobPageHeader))`: since the packed struct is made
of unsigned integer fields only, zeroing the bytes zeroes every field. -/
def PBlobPageHeader.init : PBlobPageHeader :=
  ⟨0, 0, fun _ => ⟨0, 0⟩⟩

/-- Getter `PBlobPageHeader::get_num_pages` (lines 59-61). -/
def PBlobPageHeader.get_num_pages (h : PBlobPageHeader) : Nat := h.m_num_pages

/-- Getter `PBlobPageHeader::get_free_bytes` (lines 69-71). -/
def PBlobPageHeader.get_free_bytes (h : PBlobPageHeader) : Nat := h.m_free_bytes

/-- Getter `PBlobPageHeader::get_freelist_entries` (lines 79-81): the fixed
count 32. -/
def PBlobPageHeader.get_freelist_entries (_ : PBlobPageHeader) : Nat := 32

/-- Getter `PBlobPageHeader::get_freelist_offset` (lines 84-86). -/
def PBlobPageHeader.get_freelist_offset (h : PBlobPageHeader) (i : Fin 32) :
    Nat := (h.m_freelist i).offset

/-- Getter `PBlobPageHeader::get_freelist_size` (lines 94-96). -/
def PBlobPageHeader.get_freelist_size (h : PBlobPageHeader) (i : Fin 32) :
    Nat := (h.m_freelist i).size

/-- Ordered insertion never returns the empty map. -/
theorem mapInsert_ne_nil (k v : Int) (l : MapList) : mapInsert k v l ≠ [] := by
  cases l with
  | nil => simp [mapInsert]
  | cons p rest =>
    obtain ⟨k0, v0⟩ := p
    rw [mapInsert]
    split
    · simp
    · split <;> simp

/-- Every element of the inserted map is the new pair or an old element. -/
theorem mem_mapInsert {k v : Int} {x : Int × Int} :
    ∀ {l : MapList}, x ∈ mapInsert k v l → x = (k, v) ∨ x ∈ l := by
  intro l
  induction l with
  | nil => intro h; simp [mapInsert] at h; exact Or.inl h
  | cons p rest ih =>
    obtain ⟨k0, v0⟩ := p
    intro h
    rw [mapInsert] at h
    by_cases h1 : k < k0
    · rw [if_pos h1] at h
      rcases List.mem_cons.mp h with h | h
      · exact Or.inl h
      · exact Or.inr h
    · by_cases h2 : k = k0
      · rw [if_neg h1, if_pos h2] at h
        exact Or.inr h
      · rw [if_neg h1, if_neg h2] at h
        rcases List.mem_cons.mp h with h | h
        · subst h; exact Or.inr (List.mem_cons_self _ _)
        · rcases ih h with h | h
          · exact Or.inl h
          · exact Or.inr (List.mem_cons_of_mem _ h)

/-- Ordered insertion preserves the strict sortedness of the map. -/
theorem mapInsert_sorted {l : MapList} (hs : SortedMap l) (k v : Int) :
    SortedMap (mapInsert k v l) := by
  induction l with
  | nil => simp [mapInsert, SortedMap]
  | cons p rest ih =>
    obtain ⟨k0, v0⟩ := p
    rcases List.pairwise_cons.mp hs with ⟨h0, htail⟩
    rw [mapInsert]
    by_cases h1 : k < k0
    · rw [if_pos h1]
      refine List.pairwise_cons.mpr ⟨?_, hs⟩
      intro q hq
      rcases List.mem_cons.mp hq with rfl | hq
      · exact h1
      · exact h1.trans (h0 q hq)
    · by_cases h2 : k = k0
      · rw [if_neg h1, if_pos h2]; exact hs
      · rw [if_neg h1, if_neg h2]
        refine List.pairwise_cons.mpr ⟨?_, ih htail⟩
        intro q hq
        rcases mem_mapInsert hq with rfl | hq
        · exact lt_of_le_of_ne (not_lt.mp h1) (Ne.symm h2)
        · exact h0 q hq

/-- Erasure produces a sublist of the original map. -/
theorem mapErase_sublist (k : Int) : ∀ l : MapList, List.Sublist (mapErase k l) l
  | [] => List.Sublist.refl _
  | (k0, v0) :: rest => by
      rw [mapErase]
      split
      · exact List.sublist_cons_self _ _
      · exact List.Sublist.cons₂ _ (mapErase_sublist k rest)

/-- Erasure preserves the strict sortedness of the map. -/
theorem mapErase_sorted {l : MapList} (hs : SortedMap l) (k : Int) :
    SortedMap (mapErase k l) :=
  List.Pairwise.sublist (mapErase_sublist k l) hs

/-- The default of `headKeyD` is irrelevant on a nonempty map. -/
theorem headKeyD_irrel {l : MapList} (h : l ≠ []) (d d' : Int) :
    headKeyD d l = headKeyD d' l := by
  cases l with
  | nil => exact absurd rfl h
  | cons p rest => rfl

/-- First key after inserting into a nonempty map: the smaller of the new
key and the previous first key. -/
theorem headKeyD_mapInsert (d k v k0 v0 : Int) (rest : MapList) :
    headKeyD d (mapInsert k v ((k0, v0) :: rest)) = min k k0 := by
  rw [mapInsert]
  by_cases h1 : k < k0
  · rw [if_pos h1]; rw [min_eq_left h1.le]; rfl
  · by_cases h2 : k = k0
    · subst h2
      rw [if_neg h1, if_pos rfl, min_self]; rfl
    · have h3 : k0 < k := lt_of_le_of_ne (not_lt.mp h1) (Ne.symm h2)
      rw [if_neg h1, if_neg h2, min_eq_right h3.le]; rfl

/-- Last key of a cons is the last key of its nonempty tail. -/
theorem lastKeyD_cons (d : Int) (p : Int × Int) {l : MapList} (h : l ≠ []) :
    lastKeyD d (p :: l) = lastKeyD d l := by
  cases l with
  | nil => exact absurd rfl h
  | cons q rest => rfl

/-- The default of `lastKeyD` is irrelevant on a nonempty map. -/
theorem lastKeyD_irrel (d d' : Int) :
    ∀ {l : MapList}, l ≠ [] → lastKeyD d l = lastKeyD d' l
  | [], h => absurd rfl h
  | [(k0, v0)], _ => rfl
  | p :: q :: rest, _ => by
      rw [lastKeyD_cons d p (by simp), lastKeyD_cons d' p (by simp)]
      exact lastKeyD_irrel d d' (by simp)

/-- The last key of a nonempty map is one of its keys. -/
theorem lastKeyD_mem (d : Int) :
    ∀ {l : MapList}, l ≠ [] → lastKeyD d l ∈ l.map Prod.fst
  | [], h => absurd rfl h
  | [(k0, v0)], _ => by simp [lastKeyD]
  | p :: q :: rest, _ => by
      rw [lastKeyD_cons d p (by simp)]
      exact List.mem_cons_of_mem _ (lastKeyD_mem d (by simp))

/-- Last key after inserting into a sorted nonempty map: the larger of the
new key and the previous last key. -/
theorem lastKeyD_mapInsert (d k v : Int) :
    ∀ {l : MapList}, SortedMap l → l ≠ [] →
      lastKeyD d (mapInsert k v l) = max k (lastKeyD d l)
  | [], _, h => absurd rfl h
  | [(k0, v0)], _, _ => by
      have e0 : lastKeyD d [(k0, v0)] = k0 := rfl
      rw [mapInsert, e0]
      by_cases h1 : k < k0
      · rw [if_pos h1, max_eq_right h1.le]; rfl
      · by_cases h2 : k = k0
        · subst h2
          rw [if_neg h1, if_pos rfl, max_self]; rfl
        · have h3 : k0 < k := lt_of_le_of_ne (not_lt.mp h1) (Ne.symm h2)
          rw [if_neg h1, if_neg h2, max_eq_left h3.le]; rfl
  | (k0, v0) :: q :: rest, hs, _ => by
      rcases List.pairwise_cons.mp hs with ⟨h0, htail⟩
      have hlast_mem : lastKeyD d (q :: rest) ∈ (q :: rest).map Prod.fst :=
        lastKeyD_mem d (by simp)
      have hk0last : k0 < lastKeyD d (q :: rest) := by
        rcases List.mem_map.mp hlast_mem with ⟨r, hr, heq⟩
        exact heq ▸ h0 r hr
      have econs : lastKeyD d ((k0, v0) :: q :: rest) = lastKeyD d (q :: rest) :=
        lastKeyD_cons d (k0, v0) (by simp)
      rw [mapInsert, econs]
      by_cases h1 : k < k0
      · rw [if_pos h1, lastKeyD_cons d (k, v) (by simp), econs]
        exact (max_eq_right (h1.trans hk0last).le).symm
      · by_cases h2 : k = k0
        · subst h2
          rw [if_neg h1, if_pos rfl, econs]
          exact (max_eq_right hk0last.le).symm
        · rw [if_neg h1, if_neg h2,
              lastKeyD_cons d (k0, v0) (mapInsert_ne_nil k v (q :: rest))]
          exact lastKeyD_mapInsert d k v htail (by simp)

/-- Left fold of `min` on a list entirely above the seed returns the seed. -/
theorem foldl_min_eq {x : Int} :
    ∀ {xs : List Int}, (∀ y ∈ xs, x ≤ y) → xs.foldl min x = x
  | [], _ => rfl
  | y :: ys, h => by
      rw [List.foldl_cons, min_eq_left (h y (List.mem_cons_self _ _))]
      exact foldl_min_eq fun z hz => h z (List.mem_cons_of_mem _ hz)

/-- On a sorted map, the minimum key is the first key. -/
theorem keysMinD_eq_headKeyD {l : MapList} (hs : SortedMap l) (d : Int) :
    keysMinD d l = headKeyD d l := by
  cases l with
  | nil => rfl
  | cons p rest =>
    obtain ⟨k0, v0⟩ := p
    rcases List.pairwise_cons.mp hs with ⟨h0, _⟩
    show (rest.map Prod.fst).foldl min k0 = k0
    refine foldl_min_eq ?_
    intro y hy
    rcases List.mem_map.mp hy with ⟨q, hq, rfl⟩
    exact (h0 q hq).le

/-- On a sorted map, the maximum key is the last key. -/
theorem keysMaxD_eq_lastKeyD (d : Int) :
    ∀ {l : MapList}, SortedMap l → keysMaxD d l = lastKeyD d l
  | [], _ => rfl
  | [(k0, v0)], _ => rfl
  | (k0, v0) :: (k1, v1) :: rest, hs => by
      rcases List.pairwise_cons.mp hs with ⟨h0, htail⟩
      have h01 : k0 < k1 := h0 (k1, v1) (List.mem_cons_self _ _)
      have ih := keysMaxD_eq_lastKeyD d htail
      show ((k1 :: rest.map Prod.fst)).foldl max k0 = _
      rw [List.foldl_cons, max_eq_right h01.le, lastKeyD_cons d _ (by simp)]
      exact ih

/-- In every branch, `store_min_value` leaves the map sorted. -/
theorem store_min_sorted {l : MapList} (hs : SortedMap l)
    (new m v : Int) (limit : Nat) :
    SortedMap (store_min_value new m v l limit).2 := by
  unfold store_min_value
  by_cases hfull : l.length < limit
  · rw [if_pos hfull]; exact mapInsert_sorted hs new v
  · rw [if_neg hfull]
    by_cases hlt : m < new
    · rw [if_pos hlt]
      exact mapInsert_sorted (mapErase_sorted hs m) new v
    · rw [if_neg hlt]; exact hs

/-- In every branch, `store_max_value` leaves the map sorted. -/
theorem store_max_sorted {l : MapList} (hs : SortedMap l)
    (new m v : Int) (limit : Nat) :
    SortedMap (store_max_value new m v l limit).2 := by
  unfold store_max_value
  by_cases hfull : l.length < limit
  · rw [if_pos hfull]; exact mapInsert_sorted hs new v
  · rw [if_neg hfull]
    by_cases hlt : new < m
    · rw [if_pos hlt]
      exact mapInsert_sorted (mapErase_sorted hs m) new v
    · rw [if_neg hlt]; exact hs

/-- Boundary invariant of `store_min_value`: if the incoming boundary is the
first key of the map (or the sentinel `M` when the map is empty) and the new
value does not exceed the sentinel, the returned boundary is again the first
key of the returned map (or `M` when it is empty). -/
theorem store_min_inv {M m new v : Int} {l : MapList} {limit : Nat}
    (hm : m = headKeyD M l) (hnew : new ≤ M) :
    (store_min_value new m v l limit).1 =
      headKeyD M (store_min_value new m v l limit).2 := by
  unfold store_min_value
  by_cases hfull : l.length < limit
  · rw [if_pos hfull]
    cases l with
    | nil =>
      have hM : m = M := hm
      subst hM
      show (if new < m then new else m) = headKeyD m [(new, v)]
      by_cases h : new < m
      · rw [if_pos h]; rfl
      · have : new = m := le_antisymm hnew (not_lt.mp h)
        subst this
        rw [if_neg h]; rfl
    | cons p rest =>
      obtain ⟨k0, v0⟩ := p
      have hk0 : m = k0 := hm
      subst hk0
      show (if new < m then new else m) = _
      rw [headKeyD_mapInsert]
      by_cases h : new < m
      · rw [if_pos h, min_eq_left h.le]
      · rw [if_neg h, min_eq_right (not_lt.mp h)]
  · rw [if_neg hfull]
    by_cases hlt : m < new
    · rw [if_pos hlt]
      exact headKeyD_irrel (mapInsert_ne_nil _ _ _) 0 M
    · rw [if_neg hlt]; exact hm

/-- Boundary invariant of `store_max_value`: mirror image of
`store_min_inv`, phrased with the last key and a lower sentinel. -/
theorem store_max_inv {M m new v : Int} {l : MapList} {limit : Nat}
    (hs : SortedMap l) (hm : m = lastKeyD M l) (hnew : M ≤ new) :
    (store_max_value new m v l limit).1 =
      lastKeyD M (store_max_value new m v l limit).2 := by
  unfold store_max_value
  by_cases hfull : l.length < limit
  · rw [if_pos hfull]
    cases l with
    | nil =>
      have hM : m = M := hm
      subst hM
      show (if m < new then new else m) = lastKeyD m [(new, v)]
      by_cases h : m < new
      · rw [if_pos h]; rfl
      · have : new = m := le_antisymm (not_lt.mp h) hnew
        subst this
        rw [if_neg h]; rfl
    | cons p rest =>
      rw [lastKeyD_mapInsert M new v hs (by simp)]
      rw [← hm]
      by_cases h : m < new
      · rw [if_pos h, max_eq_left h.le]
      · rw [if_neg h, max_eq_right (not_lt.mp h)]
  · rw [if_neg hfull]
    by_cases hlt : new < m
    · rw [if_pos hlt]
      exact lastKeyD_irrel 0 M (mapInsert_ne_nil _ _ _)
    · rw [if_neg hlt]; exact hm

/-- Combined invariant of the top visitor state: both maps sorted and both
cached minima equal to the first key of their map (sentinel when empty). -/
def TopInv (kmax rmax : Int) (st : TopState) : Prop :=
  SortedMap st.stored_keys ∧ st.min_key = headKeyD kmax st.stored_keys ∧
  SortedMap st.stored_records ∧ st.min_record = headKeyD rmax st.stored_records

/-- Combined invariant of the bottom visitor state: both maps sorted and
both cached maxima equal to the last key of their map. -/
def BottomInv (kmin rmin : Int) (st : BottomState) : Prop :=
  SortedMap st.stored_keys ∧ st.max_key = lastKeyD kmin st.stored_keys ∧
  SortedMap st.stored_records ∧ st.max_record = lastKeyD rmin st.stored_records

/-- One top step preserves the invariant, provided the new key and record
value do not exceed the sentinels of their numeric type. -/
theorem topStep_inv {kmax rmax : Int} {stmt : SelectStatement} {st : TopState}
    {k r : Int} (hk : k ≤ kmax) (hr : r ≤ rmax) (h : TopInv kmax rmax st) :
    TopInv kmax rmax (topStep stmt st k r) := by
  obtain ⟨h1, h2, h3, h4⟩ := h
  unfold topStep
  by_cases hf : isset stmt.function_flags UQI_STREAM_KEY
  · rw [if_pos hf]
    exact ⟨store_min_sorted h1 k st.min_key r stmt.limit,
           store_min_inv h2 hk, h3, h4⟩
  · rw [if_neg hf]
    exact ⟨h1, h2, store_min_sorted h3 r st.min_record k stmt.limit,
           store_min_inv h4 hr⟩

/-- One bottom step preserves the invariant, provided the new key and record
value do not fall below the sentinels. -/
theorem bottomStep_inv {kmin rmin : Int} {stmt : SelectStatement}
    {st : BottomState} {k r : Int} (hk : kmin ≤ k) (hr : rmin ≤ r)
    (h : BottomInv kmin rmin st) :
    BottomInv kmin rmin (bottomStep stmt st k r) := by
  obtain ⟨h1, h2, h3, h4⟩ := h
  unfold bottomStep
  by_cases hf : isset stmt.function_flags UQI_STREAM_KEY
  · rw [if_pos hf]
    exact ⟨store_max_sorted h1 k st.max_key r stmt.limit,
           store_max_inv h1 h2 hk, h3, h4⟩
  · rw [if_neg hf]
    exact ⟨h1, h2, store_max_sorted h3 r st.max_record k stmt.limit,
           store_max_inv h3 h4 hr⟩

/-- The invariant is preserved across a whole row sequence, top visitor. -/
theorem topRunRows_inv {kmax rmax : Int} (stmt : SelectStatement) :
    ∀ (rows : List (Int × Int)) (st : TopState),
      (∀ p ∈ rows, p.1 ≤ kmax ∧ p.2 ≤ rmax) → TopInv kmax rmax st →
      TopInv kmax rmax (topRunRows stmt st rows)
  | [], _, _, h => h
  | p :: rest, st, hrows, h => by
      have hp := hrows p (List.mem_cons_self _ _)
      show TopInv kmax rmax (topRunRows stmt (topStep stmt st p.1 p.2) rest)
      exact topRunRows_inv stmt rest _
        (fun q hq => hrows q (List.mem_cons_of_mem _ hq))
        (topStep_inv hp.1 hp.2 h)

/-- The invariant is preserved across a whole row sequence, bottom visitor. -/
theorem bottomRunRows_inv {kmin rmin : Int} (stmt : SelectStatement) :
    ∀ (rows : List (Int × Int)) (st : BottomState),
      (∀ p ∈ rows, kmin ≤ p.1 ∧ rmin ≤ p.2) → BottomInv kmin rmin st →
      BottomInv kmin rmin (bottomRunRows stmt st rows)
  | [], _, _, h => h
  | p :: rest, st, hrows, h => by
      have hp := hrows p (List.mem_cons_self _ _)
      show BottomInv kmin rmin (bottomRunRows stmt (bottomStep stmt st p.1 p.2) rest)
      exact bottomRunRows_inv stmt rest _
        (fun q hq => hrows q (List.mem_cons_of_mem _ hq))
        (bottomStep_inv hp.1 hp.2 h)

/-- Sortedness of the two maps alone, top visitor state. -/
def TopSorted (st : TopState) : Prop :=
  SortedMap st.stored_keys ∧ SortedMap st.stored_records

/-- Sortedness of the two maps alone, bottom visitor state. -/
def BottomSorted (st : BottomState) : Prop :=
  SortedMap st.stored_keys ∧ SortedMap st.stored_records

/-- A top step keeps both maps sorted, with no side condition. -/
theorem topStep_sorted {stmt : SelectStatement} {st : TopState} {k r : Int}
    (h : TopSorted st) : TopSorted (topStep stmt st k r) := by
  obtain ⟨h1, h2⟩ := h
  unfold topStep
  by_cases hf : isset stmt.function_flags UQI_STREAM_KEY
  · rw [if_pos hf]; exact ⟨store_min_sorted h1 k st.min_key r stmt.limit, h2⟩
  · rw [if_neg hf]; exact ⟨h1, store_min_sorted h2 r st.min_record k stmt.limit⟩

/-- A bottom step keeps both maps sorted, with no side condition. -/
theorem bottomStep_sorted {stmt : SelectStatement} {st : BottomState}
    {k r : Int} (h : BottomSorted st) : BottomSorted (bottomStep stmt st k r) := by
  obtain ⟨h1, h2⟩ := h
  unfold bottomStep
  by_cases hf : isset stmt.function_flags UQI_STREAM_KEY
  · rw [if_pos hf]; exact ⟨store_max_sorted h1 k st.max_key r stmt.limit, h2⟩
  · rw [if_neg hf]; exact ⟨h1, store_max_sorted h2 r st.max_record k stmt.limit⟩

/-- Sortedness of both maps is preserved by any row sequence, top. -/
theorem topRunRows_sorted (stmt : SelectStatement) :
    ∀ (rows : List (Int × Int)) (st : TopState),
      TopSorted st → TopSorted (topRunRows stmt st rows)
  | [], _, h => h
  | p :: rest, st, h => by
      show TopSorted (topRunRows stmt (topStep stmt st p.1 p.2) rest)
      exact topRunRows_sorted stmt rest _ (topStep_sorted h)

/-- Sortedness of both maps is preserved by any row sequence, bottom. -/
theorem bottomRunRows_sorted (stmt : SelectStatement) :
    ∀ (rows : List (Int × Int)) (st : BottomState),
      BottomSorted st → BottomSorted (bottomRunRows stmt st rows)
  | [], _, h => h
  | p :: rest, st, h => by
      show BottomSorted (bottomRunRows stmt (bottomStep stmt st p.1 p.2) rest)
      exact bottomRunRows_sorted stmt rest _ (bottomStep_sorted h)

/-- The predicate variant of the top visitor computes exactly the plain
visitor on the predicate-filtered stream. -/
theorem topIfRunRows_filter (pred : Int → Int → Bool) (stmt : SelectStatement) :
    ∀ (rows : List (Int × Int)) (st : TopState),
      topIfRunRows pred stmt st rows =
        topRunRows stmt st (rows.filter fun p => pred p.1 p.2)
  | [], _ => rfl
  | p :: rest, st => by
      obtain ⟨k, r⟩ := p
      show topIfRunRows pred stmt (topIfStep pred stmt st k r) rest = _
      rw [topIfRunRows_filter pred stmt rest, List.filter_cons]
      unfold topIfStep
      by_cases h : pred k r
      · simp only [h, if_true]; rfl
      · simp only [h, if_false, Bool.false_eq_true]

/-- The predicate variant of the bottom visitor computes exactly the plain
visitor on the predicate-filtered stream. -/
theorem bottomIfRunRows_filter (pred : Int → Int → Bool)
    (stmt : SelectStatement) :
    ∀ (rows : List (Int × Int)) (st : BottomState),
      bottomIfRunRows pred stmt st rows =
        bottomRunRows stmt st (rows.filter fun p => pred p.1 p.2)
  | [], _ => rfl
  | p :: rest, st => by
      obtain ⟨k, r⟩ := p
      show bottomIfRunRows pred stmt (bottomIfStep pred stmt st k r) rest = _
      rw [bottomIfRunRows_filter pred stmt rest, List.filter_cons]
      unfold bottomIfStep
      by_cases h : pred k r
      · simp only [h, if_true]; rfl
      · simp only [h, if_false, Bool.false_eq_true]

/-- The batch entry of the plain top visitor equals the row-wise run over
the zipped arrays. -/
theorem topBatch_zip (stmt : SelectStatement) :
    ∀ (ks rs : List Int) (st : TopState),
      topBatch stmt st ks rs = topRunRows stmt st (ks.zip rs)
  | [], rs, _ => by cases rs <;> rfl
  | _ :: _, [], _ => rfl
  | k :: ks, r :: rs, st => by
      show topBatch stmt (topStep stmt st k r) ks rs = _
      rw [topBatch_zip stmt ks rs]
      rfl

/-- The batch entry of the plain bottom visitor equals the row-wise run. -/
theorem bottomBatch_zip (stmt : SelectStatement) :
    ∀ (ks rs : List Int) (st : BottomState),
      bottomBatch stmt st ks rs = bottomRunRows stmt st (ks.zip rs)
  | [], rs, _ => by cases rs <;> rfl
  | _ :: _, [], _ => rfl
  | k :: ks, r :: rs, st => by
      show bottomBatch stmt (bottomStep stmt st k r) ks rs = _
      rw [bottomBatch_zip stmt ks rs]
      rfl

/-- The batch entry of the top predicate variant equals the row-wise run. -/
theorem topIfBatch_zip (pred : Int → Int → Bool) (stmt : SelectStatement) :
    ∀ (ks rs : List Int) (st : TopState),
      topIfBatch pred stmt st ks rs = topIfRunRows pred stmt st (ks.zip rs)
  | [], rs, _ => by cases rs <;> rfl
  | _ :: _, [], _ => rfl
  | k :: ks, r :: rs, st => by
      show topIfBatch pred stmt (topIfStep pred stmt st k r) ks rs = _
      rw [topIfBatch_zip pred stmt ks rs]
      rfl

/-- The batch entry of the bottom predicate variant equals the row-wise
run. -/
theorem bottomIfBatch_zip (pred : Int → Int → Bool) (stmt : SelectStatement) :
    ∀ (ks rs : List Int) (st : BottomState),
      bottomIfBatch pred stmt st ks rs =
        bottomIfRunRows pred stmt st (ks.zip rs)
  | [], rs, _ => by cases rs <;> rfl
  | _ :: _, [], _ => rfl
  | k :: ks, r :: rs, st => by
      show bottomIfBatch pred stmt (bottomIfStep pred stmt st k r) ks rs = _
      rw [bottomIfBatch_zip pred stmt ks rs]
      rfl

/-- Rows handed to the result builder by the top visitor are ascending in
the selected dimension whenever both maps are sorted. -/
theorem topAssign_sorted {stmt : SelectStatement} {st : TopState}
    (h1 : SortedMap st.stored_keys) (h2 : SortedMap st.stored_records) :
    List.Sorted (· ≤ ·) ((topAssignResult stmt st).rows.map (dimProj stmt)) := by
  unfold topAssignResult dimProj
  by_cases hf : isset stmt.function_flags UQI_STREAM_KEY
  · simp only [hf, if_true]
    exact List.pairwise_map.mpr (h1.imp fun hab => le_of_lt hab)
  · simp only [hf, if_false, Bool.false_eq_true, List.map_map]
    exact List.pairwise_map.mpr (h2.imp fun hab => le_of_lt hab)

/-- Rows handed to the result builder by the bottom visitor are ascending in
the selected dimension whenever both maps are sorted. -/
theorem bottomAssign_sorted {stmt : SelectStatement} {st : BottomState}
    (h1 : SortedMap st.stored_keys) (h2 : SortedMap st.stored_records) :
    List.Sorted (· ≤ ·) ((bottomAssignResult stmt st).rows.map (dimProj stmt)) := by
  unfold bottomAssignResult dimProj
  by_cases hf : isset stmt.function_flags UQI_STREAM_KEY
  · simp only [hf, if_true]
    exact List.pairwise_map.mpr (h1.imp fun hab => le_of_lt hab)
  · simp only [hf, if_false, Bool.false_eq_true, List.map_map]
    exact List.pairwise_map.mpr (h2.imp fun hab => le_of_lt hab)

/-- Coercing the limit in the constructor leaves the function flags
untouched. -/
theorem coerced_function_flags (stmt : SelectStatement) :
    (if stmt.limit = 0 then { stmt with limit := 1 } else stmt).function_flags
      = stmt.function_flags := by
  split <;> rfl

/-- The selected-dimension projection is unaffected by the limit
coercion. -/
theorem dimProj_coerced (stmt : SelectStatement) :
    dimProj (if stmt.limit = 0 then { stmt with limit := 1 } else stmt)
      = dimProj stmt := by
  funext row
  unfold dimProj
  rw [coerced_function_flags]

/-- Input stream of spec section 8, scenario 5:
`[(k=1,v=5),(k=2,v=9),(k=3,v=2),(k=4,v=9),(k=5,v=1),(k=6,v=7)]`. -/
def scenarioRows : List (Int × Int) :=
  [(1, 5), (2, 9), (3, 2), (4, 9), (5, 1), (6, 7)]

/-- A database configuration; the type tags do not influence the window. -/
def scenarioCfg : DbConfig := ⟨0, 0⟩

/-- Statement of scenario 5: `STREAM_KEY` off (order by value), limit 3. -/
def scenarioStmt : SelectStatement := ⟨0, 0, false, 3⟩

/-- Sentinel `std::numeric_limits<uint32_t>::max()` of a uint32
instantiation. -/
def U32MAX : Int := 4294967295

/-- C1: the spec claims the TOP visitor result is, as a multiset, the K
largest projections of the stream with duplicates allowed.  On scenario 5
(top 3 by value, largest values 9, 9, 7) the code instead emits rows with
values 5, 7, 9: `std::map::insert` silently drops the second row with value
9, and in the full branch the old minimum has already been erased, so a row
is lost — contradicting the function's own comment ("delete the old minimum
to make space. Then append the new value"). -/
theorem top_scenario5_loses_duplicate_values :
    (topResult scenarioCfg scenarioStmt U32MAX U32MAX scenarioRows).rows
        = [(1, 5), (6, 7), (2, 9)] ∧
    ¬ List.Perm
        ((topResult scenarioCfg scenarioStmt U32MAX U32MAX scenarioRows).rows.map
          Prod.snd)
        [7, 9, 9] := by decide

/-- Two admitted rows sharing the ordering value 5; since the second insert
is silently dropped, the window keeps a single entry. -/
def dupRows : List (Int × Int) := [(1, 5), (2, 5)]

/-- Statement with limit 2, ordering by value. -/
def dupStmt : SelectStatement := ⟨0, 0, false, 2⟩

/-- C2: the spec claims the window size after any prefix is
`min(K, admitted_count)`.  After admitting the two rows of `dupRows` with
K = 2 the window holds one entry, not `min 2 2 = 2`: the duplicate ordering
value is dropped by `std::map::insert`. -/
theorem top_duplicate_value_shrinks_window :
    ((topRun scenarioCfg dupStmt U32MAX U32MAX dupRows).1.stored_records).length
        = 1 ∧
    1 ≠ min dupStmt.limit dupRows.length := by decide

/-- C3: on parallel key/value arrays of equal length, the batch entry of
every visitor (top, bottom, with or without predicate) leaves the same
state as feeding the zipped rows one at a time through the single-row
entry, and therefore also produces the same `assign_result` output. -/
theorem batch_equals_rowwise (pred : Int → Int → Bool)
    (stmt : SelectStatement) (tst : TopState) (bst : BottomState)
    (keys records : List Int) (hlen : keys.length = records.length) :
    (topBatch stmt tst keys records
        = topRunRows stmt tst (keys.zip records) ∧
     topIfBatch pred stmt tst keys records
        = topIfRunRows pred stmt tst (keys.zip records) ∧
     topAssignResult stmt (topBatch stmt tst keys records)
        = topAssignResult stmt (topRunRows stmt tst (keys.zip records))) ∧
    (bottomBatch stmt bst keys records
        = bottomRunRows stmt bst (keys.zip records) ∧
     bottomIfBatch pred stmt bst keys records
        = bottomIfRunRows pred stmt bst (keys.zip records) ∧
     bottomAssignResult stmt (bottomBatch stmt bst keys records)
        = bottomAssignResult stmt (bottomRunRows stmt bst (keys.zip records))) :=
  ⟨⟨topBatch_zip stmt keys records tst,
    topIfBatch_zip pred stmt keys records tst,
    congrArg (topAssignResult stmt) (topBatch_zip stmt keys records tst)⟩,
   ⟨bottomBatch_zip stmt keys records bst,
    bottomIfBatch_zip pred stmt keys records bst,
    congrArg (bottomAssignResult stmt) (bottomBatch_zip stmt keys records bst)⟩⟩

/-- Concrete top state used to instantiate witnesses. -/
def wTop : TopState := ⟨100, [], 100, [], 0, 0⟩

/-- Concrete bottom state used to instantiate witnesses. -/
def wBot : BottomState := ⟨-100, [], -100, [], 0, 0⟩

/-- Witness for the batch equivalence at a concrete input. -/
theorem batch_equals_rowwise_witness :
    ([1, 2] : List Int).length = ([5, 6] : List Int).length ∧
    topBatch scenarioStmt wTop [1, 2] [5, 6]
      = topRunRows scenarioStmt wTop (List.zip [1, 2] [5, 6]) :=
  ⟨by decide,
   (batch_equals_rowwise (fun k r => decide (k < r)) scenarioStmt wTop wBot
      [1, 2] [5, 6] (by decide)).1.1⟩

/-- C4: the predicate variants evaluate the predicate on every row before
anything else; a run of the predicate variant equals a plain run over the
predicate-filtered stream, both state-wise from any state and result-wise
for a full constructed run. -/
theorem predicate_gate_equals_filtered (pred : Int → Int → Bool)
    (cfg : DbConfig) (stmt : SelectStatement) (kmax rmax kmin rmin : Int)
    (tst : TopState) (bst : BottomState) (rows : List (Int × Int)) :
    topIfRunRows pred stmt tst rows
        = topRunRows stmt tst (rows.filter fun p => pred p.1 p.2) ∧
    bottomIfRunRows pred stmt bst rows
        = bottomRunRows stmt bst (rows.filter fun p => pred p.1 p.2) ∧
    topIfResult pred cfg stmt kmax rmax rows
        = topResult cfg stmt kmax rmax (rows.filter fun p => pred p.1 p.2) ∧
    bottomIfResult pred cfg stmt kmin rmin rows
        = bottomResult cfg stmt kmin rmin (rows.filter fun p => pred p.1 p.2) := by
  refine ⟨topIfRunRows_filter pred stmt rows tst,
          bottomIfRunRows_filter pred stmt rows bst, ?_, ?_⟩
  · unfold topIfResult topResult topIfRun topRun
    rw [topIfRunRows_filter]
  · unfold bottomIfResult bottomResult bottomIfRun bottomRun
    rw [bottomIfRunRows_filter]

/-- The statement left behind by the top constructor selects the same
dimension as the original statement. -/
theorem dimProj_constructTop (cfg : DbConfig) (stmt : SelectStatement)
    (kmax rmax : Int) :
    dimProj (constructTop cfg stmt kmax rmax).2 = dimProj stmt :=
  dimProj_coerced stmt

/-- The statement left behind by the bottom constructor selects the same
dimension as the original statement. -/
theorem dimProj_constructBottom (cfg : DbConfig) (stmt : SelectStatement)
    (kmin rmin : Int) :
    dimProj (constructBottom cfg stmt kmin rmin).2 = dimProj stmt :=
  dimProj_coerced stmt

/-- C5: the rows emitted by `assign_result` of any of the four visitors are
ascending in the selected dimension — by key when `UQI_STREAM_KEY` is set,
by record value otherwise. -/
theorem results_sorted_on_selected_dimension (pred : Int → Int → Bool)
    (cfg : DbConfig) (stmt : SelectStatement) (kmax rmax kmin rmin : Int)
    (rows : List (Int × Int)) :
    List.Sorted (· ≤ ·)
        ((topResult cfg stmt kmax rmax rows).rows.map (dimProj stmt)) ∧
    List.Sorted (· ≤ ·)
        ((bottomResult cfg stmt kmin rmin rows).rows.map (dimProj stmt)) ∧
    List.Sorted (· ≤ ·)
        ((topIfResult pred cfg stmt kmax rmax rows).rows.map (dimProj stmt)) ∧
    List.Sorted (· ≤ ·)
        ((bottomIfResult pred cfg stmt kmin rmin rows).rows.map (dimProj stmt)) := by
  have hts := topRunRows_sorted (constructTop cfg stmt kmax rmax).2 rows
      (constructTop cfg stmt kmax rmax).1 ⟨List.Pairwise.nil, List.Pairwise.nil⟩
  have hbs := bottomRunRows_sorted (constructBottom cfg stmt kmin rmin).2 rows
      (constructBottom cfg stmt kmin rmin).1 ⟨List.Pairwise.nil, List.Pairwise.nil⟩
  have htfs := topRunRows_sorted (constructTop cfg stmt kmax rmax).2
      (rows.filter fun p => pred p.1 p.2)
      (constructTop cfg stmt kmax rmax).1 ⟨List.Pairwise.nil, List.Pairwise.nil⟩
  have hbfs := bottomRunRows_sorted (constructBottom cfg stmt kmin rmin).2
      (rows.filter fun p => pred p.1 p.2)
      (constructBottom cfg stmt kmin rmin).1 ⟨List.Pairwise.nil, List.Pairwise.nil⟩
  refine ⟨?_, ?_, ?_, ?_⟩
  · unfold topResult topRun
    rw [← dimProj_constructTop cfg stmt kmax rmax]
    exact topAssign_sorted hts.1 hts.2
  · unfold bottomResult bottomRun
    rw [← dimProj_constructBottom cfg stmt kmin rmin]
    exact bottomAssign_sorted hbs.1 hbs.2
  · unfold topIfResult topIfRun
    rw [← dimProj_constructTop cfg stmt kmax rmax, topIfRunRows_filter]
    exact topAssign_sorted htfs.1 htfs.2
  · unfold bottomIfResult bottomIfRun
    rw [← dimProj_constructBottom cfg stmt kmin rmin, bottomIfRunRows_filter]
    exact bottomAssign_sorted hbfs.1 hbfs.2

/-- C6: after any run, the cached boundary of each window equals the
extremum of the ordering keys currently stored in it — the minimum for the
TOP visitor, the maximum for the BOTTOM visitor — and for an empty window
it is the sentinel (the maximal representable value of the ordering type
for TOP, the minimal for BOTTOM), provided every streamed value is
representable in the instantiated numeric type. -/
theorem boundary_equals_window_extremum (cfg : DbConfig)
    (stmt : SelectStatement) (kmax rmax kmin rmin : Int)
    (rows : List (Int × Int))
    (hmax : ∀ p ∈ rows, p.1 ≤ kmax ∧ p.2 ≤ rmax)
    (hmin : ∀ p ∈ rows, kmin ≤ p.1 ∧ rmin ≤ p.2) :
    ((topRun cfg stmt kmax rmax rows).1.min_key
        = keysMinD kmax (topRun cfg stmt kmax rmax rows).1.stored_keys ∧
     (topRun cfg stmt kmax rmax rows).1.min_record
        = keysMinD rmax (topRun cfg stmt kmax rmax rows).1.stored_records) ∧
    ((bottomRun cfg stmt kmin rmin rows).1.max_key
        = keysMaxD kmin (bottomRun cfg stmt kmin rmin rows).1.stored_keys ∧
     (bottomRun cfg stmt kmin rmin rows).1.max_record
        = keysMaxD rmin (bottomRun cfg stmt kmin rmin rows).1.stored_records) := by
  obtain ⟨ht1, ht2, ht3, ht4⟩ :=
    topRunRows_inv (constructTop cfg stmt kmax rmax).2 rows
      (constructTop cfg stmt kmax rmax).1 hmax
      ⟨List.Pairwise.nil, rfl, List.Pairwise.nil, rfl⟩
  obtain ⟨hb1, hb2, hb3, hb4⟩ :=
    bottomRunRows_inv (constructBottom cfg stmt kmin rmin).2 rows
      (constructBottom cfg stmt kmin rmin).1 hmin
      ⟨List.Pairwise.nil, rfl, List.Pairwise.nil, rfl⟩
  dsimp only [topRun, bottomRun]
  refine ⟨⟨?_, ?_⟩, ⟨?_, ?_⟩⟩
  · rw [keysMinD_eq_headKeyD ht1 kmax]; exact ht2
  · rw [keysMinD_eq_headKeyD ht3 rmax]; exact ht4
  · rw [keysMaxD_eq_lastKeyD kmin hb1]; exact hb2
  · rw [keysMaxD_eq_lastKeyD rmin hb3]; exact hb4

/-- Rows used to instantiate witnesses of the invariant theorems. -/
def wRows : List (Int × Int) := [(1, 2), (3, 4), (3, 9)]

/-- Witness for the boundary invariant at a concrete input. -/
theorem boundary_equals_window_extremum_witness :
    ((∀ p ∈ wRows, p.1 ≤ 100 ∧ p.2 ≤ 100) ∧
     (∀ p ∈ wRows, -100 ≤ p.1 ∧ -100 ≤ p.2)) ∧
    (topRun scenarioCfg scenarioStmt 100 100 wRows).1.min_record
      = keysMinD 100 (topRun scenarioCfg scenarioStmt 100 100 wRows).1.stored_records :=
  ⟨⟨by decide, by decide⟩,
   ((boundary_equals_window_extremum scenarioCfg scenarioStmt 100 100
      (-100) (-100) wRows (by decide) (by decide)).1).2⟩

/-- C7: constructing any of the visitors with `limit == 0` behaves exactly
as if the limit were 1: the statement left behind carries effective window
capacity 1, and each full run equals the corresponding run at limit 1. -/
theorem limit_zero_behaves_as_limit_one (pred : Int → Int → Bool)
    (cfg : DbConfig) (stmt : SelectStatement) (kmax rmax kmin rmin : Int)
    (rows : List (Int × Int)) (h : stmt.limit = 0) :
    (constructTop cfg stmt kmax rmax).2.limit = 1 ∧
    (constructBottom cfg stmt kmin rmin).2.limit = 1 ∧
    topRun cfg stmt kmax rmax rows
        = topRun cfg { stmt with limit := 1 } kmax rmax rows ∧
    bottomRun cfg stmt kmin rmin rows
        = bottomRun cfg { stmt with limit := 1 } kmin rmin rows ∧
    topIfRun pred cfg stmt kmax rmax rows
        = topIfRun pred cfg { stmt with limit := 1 } kmax rmax rows ∧
    bottomIfRun pred cfg stmt kmin rmin rows
        = bottomIfRun pred cfg { stmt with limit := 1 } kmin rmin rows := by
  have e : constructTop cfg stmt kmax rmax
      = constructTop cfg { stmt with limit := 1 } kmax rmax := by
    unfold constructTop
    rw [if_pos h, if_neg (by simp)]
  have e2 : constructBottom cfg stmt kmin rmin
      = constructBottom cfg { stmt with limit := 1 } kmin rmin := by
    unfold constructBottom
    rw [if_pos h, if_neg (by simp)]
  refine ⟨?_, ?_, ?_, ?_, ?_, ?_⟩
  · unfold constructTop; rw [if_pos h]
  · unfold constructBottom; rw [if_pos h]
  · unfold topRun; rw [e]
  · unfold bottomRun; rw [e2]
  · unfold topIfRun; rw [e]
  · unfold bottomIfRun; rw [e2]

/-- Statement with limit 0 used by the coercion witnesses. -/
def wLimitZeroStmt : SelectStatement := ⟨1, 0, false, 0⟩

/-- Witness for the limit coercion behaviour at a concrete input. -/
theorem limit_zero_behaves_as_limit_one_witness :
    wLimitZeroStmt.limit = 0 ∧
    (constructTop scenarioCfg wLimitZeroStmt 100 100).2.limit = 1 :=
  ⟨by decide,
   (limit_zero_behaves_as_limit_one (fun _ _ => true) scenarioCfg
      wLimitZeroStmt 100 100 (-100) (-100) [] (by decide)).1⟩

/-- C8 counterexample: assigning from a `File` whose mmap handle is 5 (and
descriptor 3) to a `File` holding descriptor 7 and mmap handle 9 leaves the
donor still owning mmap handle 5 — not invalidated — and the recipient
still holding its old mmap handle 9 rather than the donor's: `operator=`
moves only `m_fd`. -/
theorem file_assign_keeps_donor_mmap :
    (fileAssign ⟨7, 9⟩ ⟨3, 5⟩).2.m_mmaph = 5 ∧
    (5 : Int) ≠ HAM_INVALID_FD ∧
    (fileAssign ⟨7, 9⟩ ⟨3, 5⟩).1.m_mmaph = 9 := by decide

/-- C8 (amended): copy construction transfers both the file descriptor and
the mmap handle and invalidates both in the donor; copy assignment
transfers only the file descriptor and invalidates only the donor's
descriptor, leaving both objects' mmap handles untouched.  After either
operation `is_open()` on the donor returns false, since it consults only
the descriptor. -/
theorem file_move_semantics (f g : File) :
    fileCopyCtor f = (⟨f.m_fd, f.m_mmaph⟩, ⟨HAM_INVALID_FD, HAM_INVALID_FD⟩) ∧
    (fileCopyCtor f).2.is_open = false ∧
    fileAssign g f
      = ({ g with m_fd := f.m_fd }, { f with m_fd := HAM_INVALID_FD }) ∧
    (fileAssign g f).2.is_open = false :=
  ⟨rfl, rfl, rfl, rfl⟩

/-- C9: when the caller's statement has `limit == 0`, construction of a top
or bottom visitor writes `limit = 1` back into that statement; all other
fields are left unchanged, so the statement afterwards is exactly the
original with its limit field replaced by 1. -/
theorem construct_limit_zero_mutates_statement (cfg : DbConfig)
    (stmt : SelectStatement) (kmax rmax kmin rmin : Int)
    (h : stmt.limit = 0) :
    (constructTop cfg stmt kmax rmax).2 = { stmt with limit := 1 } ∧
    (constructBottom cfg stmt kmin rmin).2 = { stmt with limit := 1 } := by
  unfold constructTop constructBottom
  rw [if_pos h]
  exact ⟨rfl, rfl⟩

/-- Witness for the in-place statement mutation at a concrete input. -/
theorem construct_limit_zero_mutates_statement_witness :
    wLimitZeroStmt.limit = 0 ∧
    (constructTop scenarioCfg wLimitZeroStmt 100 100).2
      = { wLimitZeroStmt with limit := 1 } :=
  ⟨by decide,
   (construct_limit_zero_mutates_statement scenarioCfg wLimitZeroStmt
      100 100 (-100) (-100) (by decide)).1⟩

/-- C10: after `PBlobPageHeader::initialize()` the whole header is zeroed:
`get_num_pages()` and `get_free_bytes()` return 0 and every one of the 32
freelist entries has size 0 (the empty-slot marker) and offset 0. -/
theorem pblob_header_init_zeroes_everything :
    PBlobPageHeader.init.get_num_pages = 0 ∧
    PBlobPageHeader.init.get_free_bytes = 0 ∧
    ∀ i : Fin 32,
      PBlobPageHeader.init.get_freelist_size i = 0 ∧
      PBlobPageHeader.init.get_freelist_offset i = 0 :=
  ⟨rfl, rfl, fun _ => ⟨rfl, rfl⟩⟩
